import Mathlib

/-!
Verification development for the obsidian-ghostty terminal wrapper
(`src/native/ghostty_vt.cc`) and the VT core it drives.

The wrapper layer (handle lifecycle, argument dispatch, status codes,
uint16 casts) is embedded directly from `ghostty_vt.cc`.  The VT core
(`ghostty_vt_terminal_new/feed/resize/scroll_viewport/dump_viewport/
cursor_position/free`) is not part of this repository's sources, so its
behaviour is modelled from the design spec (byte decoder, escape-sequence
parser, grid, scrollback, viewport); every such definition carries a
`Modelled from the spec:` doc comment.
-/

namespace GhosttyVT

/-- Modelled from the spec: a grid row — an ordered sequence of cells
(code points, 32 = blank) plus a flag marking whether the row soft-wrapped
into the next row (`ghostty_vt` core Row; not in src/). -/
structure Row where
  cells : List Nat
  wrapped : Bool
  deriving DecidableEq, Repr

/-- Modelled from the spec: escape-parser state (Ground, Escape, CSI
collection with accumulated parameters, CSI-ignore for malformed/over-long
sequences, OSC string collection) of the `ghostty_vt` core parser
(not in src/). -/
inductive PState where
  | ground
  | escape
  | csi (ps : List Nat) (cur : Option Nat)
  | csiIgnore
  | osc (len : Nat)
  | oscEsc (len : Nat)
  deriving DecidableEq, Repr

/-- Modelled from the spec: the terminal instance owned by a
`ghostty_vt_terminal_t` handle — grid, cursor, scrollback, viewport
offset, parser state and incremental UTF-8 decode state (not in src/). -/
structure Term where
  cols : Nat
  rows : Nat
  screenRows : List Row
  cursorCol : Nat
  cursorRow : Nat
  scrollback : List Row
  maxScrollback : Nat
  viewOff : Nat
  pstate : PState
  u8 : Option (Nat × Nat)
  deriving DecidableEq, Repr

def blankRow (c : Nat) : Row := ⟨List.replicate c 32, false⟩

/-- Update grid row `i` in place. -/
def updRow (t : Term) (i : Nat) (f : Row → Row) : Term :=
  { t with screenRows := t.screenRows.set i (f (t.screenRows.getD i (blankRow t.cols))) }

/-- Modelled from the spec: evict the top grid row into bounded scrollback
(FIFO eviction of the oldest row when over the bound) and append a blank
row at the bottom. -/
def scrollUp (t : Term) : Term :=
  match t.screenRows with
  | [] => t
  | top :: rest =>
      let sb := t.scrollback ++ [top]
      let sb := if t.maxScrollback < sb.length then sb.drop (sb.length - t.maxScrollback) else sb
      { t with screenRows := rest ++ [blankRow t.cols], scrollback := sb }

/-- Modelled from the spec: line feed — at the bottom margin the top row is
evicted into scrollback, otherwise the cursor moves down. -/
def lineFeed (t : Term) : Term :=
  if t.cursorRow + 1 < t.rows then { t with cursorRow := t.cursorRow + 1 }
  else scrollUp t

/-- Modelled from the spec: print a code point at the cursor, advancing the
cursor; column overflow soft-wraps (marks the row wrapped, moves to column
0 of the next row, scrolling at the bottom margin). -/
def printCp (t : Term) (cp : Nat) : Term :=
  let t :=
    if t.cols ≤ t.cursorCol then
      lineFeed { (updRow t t.cursorRow (fun r => { r with wrapped := true })) with cursorCol := 0 }
    else t
  let t := updRow t t.cursorRow (fun r => { r with cells := r.cells.set t.cursorCol cp })
  { t with cursorCol := t.cursorCol + 1 }

/-- Blank out cell indices `[a, b)` of a row. -/
def eraseCells (r : Row) (a b : Nat) : Row :=
  { r with cells := r.cells.enum.map (fun p => if a ≤ p.1 ∧ p.1 < b then 32 else p.2) }

/-- Modelled from the spec: erase-in-line (CSI K) — 0 cursor-to-end,
1 start-to-cursor, 2 whole line; scrollback unaffected. -/
def eraseLine (t : Term) (mode : Nat) : Term :=
  if mode = 0 then updRow t t.cursorRow (fun r => eraseCells r t.cursorCol t.cols)
  else if mode = 1 then updRow t t.cursorRow (fun r => eraseCells r 0 (t.cursorCol + 1))
  else if mode = 2 then updRow t t.cursorRow (fun r => eraseCells r 0 t.cols)
  else t

/-- Modelled from the spec: erase-in-display (CSI J) — 0 cursor-to-end,
1 start-to-cursor, 2 whole display; scrollback unaffected. -/
def eraseDisplay (t : Term) (mode : Nat) : Term :=
  if mode = 2 then { t with screenRows := List.replicate t.rows (blankRow t.cols) }
  else if mode = 0 then
    let t := updRow t t.cursorRow (fun r => eraseCells r t.cursorCol t.cols)
    let rs := t.screenRows.enum.map (fun p => if t.cursorRow < p.1 then blankRow t.cols else p.2)
    { t with screenRows := rs }
  else if mode = 1 then
    let t := updRow t t.cursorRow (fun r => eraseCells r 0 (t.cursorCol + 1))
    let rs := t.screenRows.enum.map (fun p => if p.1 < t.cursorRow then blankRow t.cols else p.2)
    { t with screenRows := rs }
  else t

/-- First CSI parameter with default 1 (movement commands). -/
def csiP1 (ps : List Nat) : Nat := max 1 (ps.headD 0)

/-- The CSI final bytes this core recognizes: cursor movement
A/B/C/D/H/f, erase J/K, SGR m. -/
def recognizedCsi (cmd : Nat) : Bool :=
  cmd == 65 || cmd == 66 || cmd == 67 || cmd == 68 || cmd == 72 ||
  cmd == 102 || cmd == 74 || cmd == 75 || cmd == 109

/-- Modelled from the spec: dispatch one recognized CSI action against the
grid; cursor movement clamps to grid bounds. -/
def applyCsi (t : Term) (cmd : Nat) (ps : List Nat) : Term :=
  if cmd = 65 then { t with cursorRow := t.cursorRow - csiP1 ps }
  else if cmd = 66 then { t with cursorRow := min (t.rows - 1) (t.cursorRow + csiP1 ps) }
  else if cmd = 67 then { t with cursorCol := min (t.cols - 1) (t.cursorCol + csiP1 ps) }
  else if cmd = 68 then { t with cursorCol := t.cursorCol - csiP1 ps }
  else if cmd = 72 ∨ cmd = 102 then
    { t with cursorRow := min (t.rows - 1) (max 1 (ps.getD 0 1) - 1),
             cursorCol := min (t.cols - 1) (max 1 (ps.getD 1 1) - 1) }
  else if cmd = 74 then eraseDisplay t (ps.headD 0)
  else if cmd = 75 then eraseLine t (ps.headD 0)
  else t

/-- Maximum number of collected CSI parameters before the sequence is
treated as over-long and ignored. -/
def maxCsiParams : Nat := 16

/-- Maximum buffered OSC length before an unterminated sequence is
discarded. -/
def maxOscLen : Nat := 1024

/-- Modelled from the spec: the escape-sequence state machine, driven one
decoded unit (code point or control byte) at a time.  Malformed or
unrecognized sequences are discarded wholesale and the parser returns to
Ground. -/
def processUnit (t : Term) (u : Nat) : Term :=
  match t.pstate with
  | .ground =>
      if u = 27 then { t with pstate := .escape }
      else if u = 10 then lineFeed t
      else if u = 13 then { t with cursorCol := 0 }
      else if u = 8 then { t with cursorCol := t.cursorCol - 1 }
      else if u = 9 then { t with cursorCol := min (t.cols - 1) (8 * (t.cursorCol / 8 + 1)) }
      else if u < 32 ∨ u = 127 then t
      else printCp t u
  | .escape =>
      if u = 91 then { t with pstate := .csi [] none }
      else if u = 93 then { t with pstate := .osc 0 }
      else { t with pstate := .ground }
  | .csi ps cur =>
      if 48 ≤ u ∧ u ≤ 57 then { t with pstate := .csi ps (some (cur.getD 0 * 10 + (u - 48))) }
      else if u = 59 then
        if maxCsiParams ≤ ps.length then { t with pstate := .csiIgnore }
        else { t with pstate := .csi (ps ++ [cur.getD 0]) none }
      else if 64 ≤ u ∧ u ≤ 126 then
        let t := if recognizedCsi u then applyCsi t u (ps ++ [cur.getD 0]) else t
        { t with pstate := .ground }
      else { t with pstate := .csiIgnore }
  | .csiIgnore =>
      if 64 ≤ u ∧ u ≤ 126 then { t with pstate := .ground } else t
  | .osc len =>
      if u = 7 then { t with pstate := .ground }
      else if u = 27 then { t with pstate := .oscEsc len }
      else if maxOscLen ≤ len then { t with pstate := .ground }
      else { t with pstate := .osc (len + 1) }
  | .oscEsc _ => { t with pstate := .ground }

/-- Modelled from the spec: one byte of a fresh (no pending UTF-8) decode
step — ASCII passes straight through, lead bytes open a multi-byte
sequence, invalid bytes decode to the replacement character. -/
def stepByteFresh (t : Term) (b : Nat) : Term :=
  if b ≤ 127 then processUnit t b
  else if 194 ≤ b ∧ b ≤ 223 then { t with u8 := some (1, b - 192) }
  else if 224 ≤ b ∧ b ≤ 239 then { t with u8 := some (2, b - 224) }
  else if 240 ≤ b ∧ b ≤ 244 then { t with u8 := some (3, b - 240) }
  else processUnit t 65533

/-- Modelled from the spec: the incremental byte decoder — continuation
bytes extend a pending UTF-8 sequence (buffered across feed calls); a
broken sequence emits the replacement character and resumes at the
current byte. -/
def stepByte (t : Term) (b : Nat) : Term :=
  match t.u8 with
  | none => stepByteFresh t b
  | some (need, acc) =>
      if 128 ≤ b ∧ b ≤ 191 then
        let acc := acc * 64 + (b - 128)
        if need ≤ 1 then processUnit { t with u8 := none } acc
        else { t with u8 := some (need - 1, acc) }
      else stepByteFresh (processUnit { t with u8 := none } 65533) b

/-- Modelled from the spec: `ghostty_vt_terminal_feed` processes the full
byte slice, one byte at a time, against the persistent terminal state
(not in src/). -/
def feed (bs : List Nat) (t : Term) : Term := bs.foldl stepByte t

/-- Modelled from the spec: a fresh blank terminal of the given geometry. -/
def mkTerm (c r : Nat) : Term :=
  ⟨c, r, List.replicate r (blankRow c), 0, 0, [], 1000, 0, .ground, none⟩

/-- Modelled from the spec: `ghostty_vt_terminal_new` — constructs a blank
grid of the given size, failing (null handle) on zero dimensions
(not in src/). -/
def coreNew (c r : Nat) : Option Term :=
  if c = 0 ∨ r = 0 then none else some (mkTerm c r)

/-- Drop trailing blank cells (code point 32) from a row's cells. -/
def trimBlanks (l : List Nat) : List Nat :=
  (l.reverse.dropWhile (fun x => x == 32)).reverse

/-- Render one row: trailing blanks trimmed, cells as characters. -/
def renderLine (r : Row) : List Char := (trimBlanks r.cells).map Char.ofNat

/-- Modelled from the spec: the rows currently visible under the viewport —
a window of `rows` rows over scrollback ++ live grid, starting `viewOff`
rows above the live grid. -/
def visibleRows (t : Term) : List Row :=
  ((t.scrollback.drop (t.scrollback.length - t.viewOff)) ++ t.screenRows).take t.rows

/-- The rendered text lines of the current viewport. -/
def dumpLines (t : Term) : List (List Char) := (visibleRows t).map renderLine

/-- Modelled from the spec: `ghostty_vt_terminal_dump_viewport` — each
visible row rendered with trailing blanks trimmed and terminated by a
line break (cf. the spec scenario whose dump begins `"hello\nworld\n"`)
(not in src/). -/
def dumpViewport (t : Term) : String :=
  String.mk (((dumpLines t).map (fun l => l ++ [Char.ofNat 10])).flatten)

/-- Modelled from the spec: `ghostty_vt_terminal_scroll_viewport` — moves
the viewport offset by `delta` rows (positive toward older history),
clamped to `[0, scrollback_length]`, returning the clamped offset
(not in src/). -/
def coreScrollViewport (d : Int) (t : Term) : Nat × Term :=
  let sb : Int := t.scrollback.length
  let off : Nat := (min ((t.viewOff : Int) + d) sb).toNat
  (off, { t with viewOff := off })

/-- Modelled from the spec: `ghostty_vt_terminal_cursor_position` — the
cursor in the live grid's coordinate space, valid for any live instance
(not in src/). -/
def coreCursorPosition (t : Term) : Nat × Nat × Bool :=
  (t.cursorCol, t.cursorRow, true)

/-- Modelled from the spec: `ghostty_vt_terminal_feed`'s return code — the
full slice is processed and the call reports success (not in src/). -/
def coreFeed (bs : List Nat) (t : Term) : Nat × Term := (0, feed bs t)

/-- Join consecutive soft-wrapped rows into logical lines (trailing blanks
of each hard-broken line trimmed), for reflow on resize. -/
def unwrapGo (acc : List Nat) : List Row → List (List Nat)
  | [] => [acc]
  | r :: rs =>
      if r.wrapped then unwrapGo (acc ++ r.cells) rs
      else (acc ++ trimBlanks r.cells) :: unwrapGo [] rs

def unwrapRows (rows : List Row) : List (List Nat) :=
  match rows with
  | [] => []
  | _ => unwrapGo [] rows

/-- Pad a cell list to width `c` with blanks. -/
def padTo (c : Nat) (l : List Nat) : List Nat := l ++ List.replicate (c - l.length) 32

/-- Re-wrap one logical line at width `c` (fuel-indexed chunking). -/
def chunkGo (fuel : Nat) (c : Nat) (l : List Nat) : List Row :=
  match fuel with
  | 0 => []
  | fuel + 1 =>
      if l.length ≤ c then [⟨padTo c l, false⟩]
      else ⟨l.take c, true⟩ :: chunkGo fuel c (l.drop c)

def chunk (c : Nat) (l : List Nat) : List Row := chunkGo (l.length + 1) c l

/-- Re-wrap a list of grid rows against a new column count. -/
def rewrap (c : Nat) (rows : List Row) : List Row :=
  (unwrapRows rows).foldr (fun l acc => chunk c l ++ acc) []

/-- Modelled from the spec: `ghostty_vt_terminal_resize` — rejects zero
dimensions; otherwise preserves the existing scrollback verbatim,
re-wraps only the visible grid rows against the new column count
(excess top rows evicted into scrollback as a normal scroll would,
missing rows padded blank at the bottom), and clamps the cursor into
the new bounds (not in src/). -/
def coreResize (c r : Nat) (t : Term) : Nat × Term :=
  if c = 0 ∨ r = 0 then (2, t)
  else
    let newRows := rewrap c t.screenRows
    let overflow := newRows.length - r
    let sbExtra := newRows.take overflow
    let visible := newRows.drop overflow
    let visible := visible ++ List.replicate (r - visible.length) (blankRow c)
    (0, { t with cols := c, rows := r, screenRows := visible,
                 scrollback := t.scrollback ++ sbExtra,
                 cursorCol := min t.cursorCol (c - 1),
                 cursorRow := min t.cursorRow (r - 1) })

/-! ## The wrapper layer, embedded from `src/native/ghostty_vt.cc`

A `GhosttyTerminal` instance holds `terminal_ : ghostty_vt_terminal_t`,
which is either null or a live core handle: `Option Term`.  JavaScript
argument values relevant to `Feed` are a byte buffer, a string (the
wrapper takes its UTF-8 bytes), or anything else. -/

inductive JsVal where
  | buffer (bs : List Nat)
  | jstr (bs : List Nat)
  | num (n : Int)
  | other
  deriving DecidableEq, Repr

/-- `GhosttyTerminal::FreeInternal` (ghostty_vt.cc:91-96): frees the core
handle if live and nulls the pointer; a no-op on an already-null handle. -/
def FreeInternal (_h : Option Term) : Option Term := none

/-- `GhosttyTerminal::Feed` (ghostty_vt.cc:98-124): 1 on a null handle, 2
when no argument was passed, the core feed result for a buffer or string
argument, 3 for any other argument type. -/
def FeedW (h : Option Term) (args : List JsVal) : Nat × Option Term :=
  match h with
  | none => (1, none)
  | some t =>
      match args with
      | [] => (2, some t)
      | a :: _ =>
          match a with
          | .buffer bs => ((coreFeed bs t).1, some (coreFeed bs t).2)
          | .jstr bs => ((coreFeed bs t).1, some (coreFeed bs t).2)
          | _ => (3, some t)

/-- The `static_cast<uint16_t>(info[i].As<Napi::Number>().Uint32Value())`
conversion of ghostty_vt.cc:72-73 and 134-135. -/
def jsToU16 (n : Nat) : Nat := n % 2 ^ 32 % 2 ^ 16

/-- The `GhosttyTerminal` constructor's numeric path (ghostty_vt.cc:64-79):
both dimensions pass through `jsToU16` before reaching the core. -/
def ConstructW (c r : Nat) : Option Term := coreNew (jsToU16 c) (jsToU16 r)

/-- `GhosttyTerminal::Resize` (ghostty_vt.cc:126-138), numeric path: 1 on a
null handle, otherwise both dimensions pass through `jsToU16` and the
core result is returned. -/
def ResizeW (h : Option Term) (c r : Nat) : Nat × Option Term :=
  match h with
  | none => (1, none)
  | some t => ((coreResize (jsToU16 c) (jsToU16 r) t).1, some (coreResize (jsToU16 c) (jsToU16 r) t).2)

/-- `GhosttyTerminal::ScrollViewport` (ghostty_vt.cc:140-151): 1 on a null
handle, otherwise the core scroll result. -/
def ScrollW (h : Option Term) (d : Int) : Nat × Option Term :=
  match h with
  | none => (1, none)
  | some t => ((coreScrollViewport d t).1, some (coreScrollViewport d t).2)

/-- `GhosttyTerminal::DumpViewport` (ghostty_vt.cc:153-166): the empty
string on a null handle, otherwise the core dump. -/
def DumpW (h : Option Term) : String :=
  match h with
  | none => ""
  | some t => dumpViewport t

/-- `GhosttyTerminal::CursorPosition` (ghostty_vt.cc:167-184):
`(0, 0, valid := false)` on a null handle, otherwise the core cursor. -/
def CursorW (h : Option Term) : Nat × Nat × Bool :=
  match h with
  | none => (0, 0, false)
  | some t => coreCursorPosition t

/-- A CSI parameter byte: an ASCII digit or the separator. -/
def paramByte (b : Nat) : Prop := (48 ≤ b ∧ b ≤ 57) ∨ b = 59

instance (b : Nat) : Decidable (paramByte b) := by unfold paramByte; infer_instance

/-- Number of parameter separators in a byte list. -/
def semis (ps : List Nat) : Nat := (ps.filter (fun b => b == 59)).length

/-- The terminal with only its parser state replaced. -/
def withP (t : Term) (p : PState) : Term := { t with pstate := p }

/-- A small concrete terminal with two scrollback rows, for instantiating
universally quantified statements. -/
def scrollT : Term := { mkTerm 5 3 with scrollback := [blankRow 5, blankRow 5] }

end GhosttyVT

namespace GhosttyVT

/-! ## Theorems -/

/-- C2: for every byte sequence `S` and split point `k`, feeding the two
halves in order on the same terminal yields exactly the same state (grid,
scrollback, cursor, parser state) as feeding `S` whole — at the core
level and through the wrapper's buffer path. -/
theorem feed_split_eq (S : List Nat) (k : Nat) (t : Term) :
    feed (S.drop k) (feed (S.take k) t) = feed S t ∧
    ∀ h : Option Term,
      FeedW (FeedW h [.buffer (S.take k)]).2 [.buffer (S.drop k)] = FeedW h [.buffer S] := by
  have hcore : ∀ u : Term, feed (S.drop k) (feed (S.take k) u) = feed S u := by
    intro u
    unfold feed
    rw [← List.foldl_append, List.take_append_drop]
  refine ⟨hcore t, ?_⟩
  intro h
  cases h with
  | none => rfl
  | some u => simp [FeedW, coreFeed, hcore u]

/-- C4: `FreeInternal` is idempotent, and every operation on a freed or
never-constructed handle returns its defined invalid result: feed, resize
and scroll return status 1, dump returns the empty string, and the cursor
query reports `valid = false`. -/
theorem free_idempotent_and_ops_after_free :
    (∀ h : Option Term, FreeInternal (FreeInternal h) = FreeInternal h) ∧
    (∀ args, (FeedW none args).1 = 1) ∧
    (∀ c r, (ResizeW none c r).1 = 1) ∧
    (∀ d, (ScrollW none d).1 = 1) ∧
    DumpW none = "" ∧
    (CursorW none).2.2 = false := by
  refine ⟨fun h => rfl, fun args => rfl, fun c r => rfl, fun d => rfl, rfl, rfl⟩

/-- C8: the cursor query reports the live grid's cursor coordinates with
`valid = true` for every live instance, `valid = false` (the only false
case) for a torn-down handle, and the reported position is unchanged by
any viewport scroll. -/
theorem cursor_live_grid_valid :
    (∀ t : Term, CursorW (some t) = (t.cursorCol, t.cursorRow, true)) ∧
    CursorW none = (0, 0, false) ∧
    (∀ (t : Term) (d : Int),
      coreCursorPosition (coreScrollViewport d t).2 = coreCursorPosition t) := by
  refine ⟨fun t => rfl, rfl, fun t d => rfl⟩

/-- C10: both the constructor and resize reduce their numeric arguments
modulo 2^16 before reaching the core: an argument of `65536 + c` behaves
identically to `c`, and `65536` itself reaches the core as `0`. -/
theorem dims_cast_mod_u16 :
    (∀ c r, ConstructW (65536 + c) r = ConstructW c r) ∧
    (∀ c r, ConstructW c (65536 + r) = ConstructW c r) ∧
    (∀ h c r, ResizeW h (65536 + c) r = ResizeW h c r) ∧
    (∀ h c r, ResizeW h c (65536 + r) = ResizeW h c r) ∧
    jsToU16 65536 = 0 ∧
    (∀ r, ConstructW 65536 r = coreNew 0 (jsToU16 r)) := by
  have hmod : ∀ n : Nat, jsToU16 n = n % 2 ^ 16 := by
    intro n
    unfold jsToU16
    exact Nat.mod_mod_of_dvd n (by norm_num)
  have hshift : ∀ c : Nat, jsToU16 (65536 + c) = jsToU16 c := by
    intro c
    rw [hmod, hmod]
    omega
  refine ⟨?_, ?_, ?_, ?_, ?_, ?_⟩
  · intro c r; unfold ConstructW; rw [hshift]
  · intro c r; unfold ConstructW; rw [hshift]
  · intro h c r; unfold ResizeW; rw [hshift]
  · intro h c r; unfold ResizeW; rw [hshift]
  · rfl
  · intro r; rfl

/-- C7: resize never disturbs the rows already stored in scrollback — the
old scrollback is, in number and content, an unchanged prefix of the
scrollback after any `coreResize` call. -/
theorem resize_preserves_scrollback (c r : Nat) (t : Term) :
    t.scrollback <+: (coreResize c r t).2.scrollback := by
  unfold coreResize
  by_cases h : c = 0 ∨ r = 0
  · simp [h]
  · simp [h]

end GhosttyVT

namespace GhosttyVT

/-- C3 counterexample: feeding a zero-length buffer to a valid handle does
NOT return the empty-input status 2 — the wrapper forwards it to the core,
which reports ok (0); status 2 is produced only when no argument is
passed at all. -/
theorem feed_empty_buffer_not_status2 :
    (FeedW (some (mkTerm 80 24)) [.buffer []]).1 = 0 ∧
    (FeedW (some (mkTerm 80 24)) []).1 = 2 ∧
    (0 : Nat) ≠ 2 := by
  refine ⟨rfl, rfl, by decide⟩

/-- C3 amended: `Feed` returns 1 on an invalid handle, 2 when called with
no argument, 3 when the argument is neither a byte buffer nor a string,
and otherwise forwards to the core, which reports 0 (ok) — including for
a zero-length buffer or string; the four statuses are pairwise distinct. -/
theorem feed_status_cases :
    (∀ args, (FeedW none args).1 = 1) ∧
    (∀ t : Term, (FeedW (some t) []).1 = 2) ∧
    (∀ (t : Term) (bs : List Nat) (rest : List JsVal),
      (FeedW (some t) (.buffer bs :: rest)).1 = 0) ∧
    (∀ (t : Term) (bs : List Nat) (rest : List JsVal),
      (FeedW (some t) (.jstr bs :: rest)).1 = 0) ∧
    (∀ (t : Term) (n : Int) (rest : List JsVal),
      (FeedW (some t) (.num n :: rest)).1 = 3) ∧
    (∀ (t : Term) (rest : List JsVal),
      (FeedW (some t) (.other :: rest)).1 = 3) := by
  refine ⟨fun args => rfl, fun t => rfl, fun t bs rest => rfl, fun t bs rest => rfl,
          fun t n rest => rfl, fun t rest => rfl⟩

/-- C5: on a valid handle with a well-formed viewport offset,
`coreScrollViewport` never errors (it returns the clamped offset), keeps
the offset inside `[0, scrollback_length]`, leaves the scrollback itself
untouched, moves toward older history for positive delta and toward the
live grid for negative delta, and saturates at `scrollback_length` once
the delta reaches past it. -/
theorem scroll_viewport_clamped (t : Term) (d : Int)
    (h : t.viewOff ≤ t.scrollback.length) :
    (coreScrollViewport d t).2.viewOff ≤ (coreScrollViewport d t).2.scrollback.length ∧
    (coreScrollViewport d t).1 = (coreScrollViewport d t).2.viewOff ∧
    (coreScrollViewport d t).2.scrollback = t.scrollback ∧
    (0 ≤ d → t.viewOff ≤ (coreScrollViewport d t).2.viewOff) ∧
    (d ≤ 0 → (coreScrollViewport d t).2.viewOff ≤ t.viewOff) ∧
    ((t.scrollback.length : Int) ≤ (t.viewOff : Int) + d →
      (coreScrollViewport d t).2.viewOff = t.scrollback.length) := by
  have e1 : (coreScrollViewport d t).2.viewOff
      = (min ((t.viewOff : Int) + d) (t.scrollback.length : Int)).toNat := rfl
  have e2 : (coreScrollViewport d t).1 = (coreScrollViewport d t).2.viewOff := rfl
  have e3 : (coreScrollViewport d t).2.scrollback = t.scrollback := rfl
  rcases le_total ((t.viewOff : Int) + d) (t.scrollback.length : Int) with h1 | h1 <;>
    [rw [min_eq_left h1] at e1; rw [min_eq_right h1] at e1] <;>
    refine ⟨?_, e2, e3, ?_, ?_, ?_⟩ <;>
    simp only [e1, e3] <;>
    (try intro hx) <;>
    omega

end GhosttyVT

namespace GhosttyVT

theorem scroll_viewport_clamped_witness :
    (coreScrollViewport 10 scrollT).2.viewOff = scrollT.scrollback.length :=
  (scroll_viewport_clamped scrollT 10 (by decide)).2.2.2.2.2 (by decide)

theorem trimBlanks_replicate (c : Nat) : trimBlanks (List.replicate c 32) = [] := by
  unfold trimBlanks
  have hd : List.dropWhile (fun x => x == 32) (List.replicate c (32 : Nat)) = [] := by
    induction c with
    | zero => rfl
    | succ k ih => simp [List.replicate_succ, List.dropWhile_cons, ih]
  rw [List.reverse_replicate, hd, List.reverse_nil]

theorem renderLine_blank (c : Nat) : renderLine (blankRow c) = [] := by
  unfold renderLine blankRow
  rw [trimBlanks_replicate]
  rfl

theorem dumpLines_mkTerm (c r : Nat) : dumpLines (mkTerm c r) = List.replicate r [] := by
  unfold dumpLines visibleRows mkTerm
  simp [List.take_replicate, List.map_replicate, renderLine_blank]

/-- C6: for positive dimensions, construction succeeds with a blank grid,
and an immediate viewport dump is a blank rectangle of exactly `rows`
lines, each line blank and hence of length at most `cols` after the
trailing-blank trim. -/
theorem create_dump_blank (c r : Nat) (hc : 0 < c) (hr : 0 < r) :
    coreNew c r = some (mkTerm c r) ∧
    (dumpLines (mkTerm c r)).length = r ∧
    ∀ l ∈ dumpLines (mkTerm c r), l = [] ∧ l.length ≤ c := by
  refine ⟨?_, ?_, ?_⟩
  · unfold coreNew
    simp [hc.ne', hr.ne']
  · rw [dumpLines_mkTerm]
    exact List.length_replicate r []
  · intro l hl
    rw [dumpLines_mkTerm] at hl
    have hl0 : l = [] := List.eq_of_mem_replicate hl
    exact ⟨hl0, by rw [hl0]; exact Nat.zero_le c⟩

theorem create_dump_blank_witness :
    coreNew 80 24 = some (mkTerm 80 24) ∧
    (dumpLines (mkTerm 80 24)).length = 24 ∧
    ∀ l ∈ dumpLines (mkTerm 80 24), l = [] ∧ l.length ≤ 80 :=
  create_dump_blank 80 24 (by decide) (by decide)

/-- C9: the viewport dump is the empty string exactly on an invalid
(torn-down or never-constructed) handle; for any live instance whose grid
is well-formed (positive row count, grid holding that many rows) — even a
fully blank one — the dumped text is non-empty. -/
theorem dump_empty_iff_invalid (t : Term) (hr : 0 < t.rows)
    (hlen : t.screenRows.length = t.rows) :
    DumpW (some t) ≠ "" ∧ DumpW none = "" := by
  constructor
  · show dumpViewport t ≠ ""
    have hvl : (dumpLines t).length = t.rows := by
      unfold dumpLines visibleRows
      simp [hlen]
    obtain ⟨l, ls, hcons⟩ : ∃ l ls, dumpLines t = l :: ls := by
      cases hdl : dumpLines t with
      | nil => rw [hdl] at hvl; simp at hvl; omega
      | cons a as => exact ⟨a, as, rfl⟩
    unfold dumpViewport
    rw [hcons]
    intro hmk
    have hdata : ((l ++ [Char.ofNat 10]) :: ls.map (fun l2 => l2 ++ [Char.ofNat 10])).flatten
        = [] := congrArg String.data hmk
    simp at hdata
  · rfl

theorem dump_empty_iff_invalid_witness :
    DumpW (some (mkTerm 80 24)) ≠ "" ∧ DumpW none = "" :=
  dump_empty_iff_invalid (mkTerm 80 24) (by decide) (by decide)

end GhosttyVT

namespace GhosttyVT

theorem feed_append (a b : List Nat) (t : Term) : feed (a ++ b) t = feed b (feed a t) := by
  unfold feed
  exact List.foldl_append stepByte t a b

theorem feed_cons (x : Nat) (l : List Nat) (t : Term) :
    feed (x :: l) t = feed l (stepByte t x) := rfl

theorem step_esc_of_ground (t : Term) (ht : t.pstate = .ground) (hu : t.u8 = none) :
    stepByte t 27 = withP t .escape := by
  obtain ⟨c, r, sr, cc, cr, sb, ms, vo, pst, u8⟩ := t
  simp only at ht hu
  subst ht; subst hu
  rfl

theorem step_bracket_of_escape (t : Term) (hu : t.u8 = none) :
    stepByte (withP t .escape) 91 = withP t (.csi [] none) := by
  obtain ⟨c, r, sr, cc, cr, sb, ms, vo, pst, u8⟩ := t
  simp only at hu
  subst hu
  rfl

theorem step_param_digit (t : Term) (hu : t.u8 = none) (qs : List Nat) (cur : Option Nat)
    (b : Nat) (hb : 48 ≤ b ∧ b ≤ 57) :
    stepByte (withP t (.csi qs cur)) b
      = withP t (.csi qs (some (cur.getD 0 * 10 + (b - 48)))) := by
  obtain ⟨c, r, sr, cc, cr, sb, ms, vo, pst, u8⟩ := t
  simp only at hu
  subst hu
  have h127 : b ≤ 127 := by omega
  simp [stepByte, withP, stepByteFresh, processUnit, h127, hb.1, hb.2]

theorem step_param_semi (t : Term) (hu : t.u8 = none) (qs : List Nat) (cur : Option Nat) :
    stepByte (withP t (.csi qs cur)) 59
      = (if maxCsiParams ≤ qs.length then withP t .csiIgnore
         else withP t (.csi (qs ++ [cur.getD 0]) none)) := by
  obtain ⟨c, r, sr, cc, cr, sb, ms, vo, pst, u8⟩ := t
  simp only at hu
  subst hu
  by_cases hq : maxCsiParams ≤ qs.length
  · simp [stepByte, withP, stepByteFresh, processUnit, hq]
  · simp [stepByte, withP, stepByteFresh, processUnit, hq]

theorem step_ignore_param (t : Term) (hu : t.u8 = none) (b : Nat) (hb : paramByte b) :
    stepByte (withP t .csiIgnore) b = withP t .csiIgnore := by
  obtain ⟨c, r, sr, cc, cr, sb, ms, vo, pst, u8⟩ := t
  simp only at hu
  subst hu
  have h127 : b ≤ 127 := by rcases hb with ⟨h1, h2⟩ | h1 <;> omega
  have h64 : ¬(64 ≤ b ∧ b ≤ 126) := by rcases hb with ⟨h1, h2⟩ | h1 <;> omega
  simp [stepByte, withP, stepByteFresh, processUnit, h127, h64]

theorem step_final_unrecognized (t : Term) (hu : t.u8 = none) (qs : List Nat)
    (cur : Option Nat) (f : Nat) (hf1 : 64 ≤ f) (hf2 : f ≤ 126)
    (hfr : recognizedCsi f = false) :
    stepByte (withP t (.csi qs cur)) f = withP t .ground := by
  obtain ⟨c, r, sr, cc, cr, sb, ms, vo, pst, u8⟩ := t
  simp only at hu
  subst hu
  have h127 : f ≤ 127 := by omega
  have hnd : ¬(48 ≤ f ∧ f ≤ 57) := by omega
  have hns : f ≠ 59 := by omega
  simp [stepByte, withP, stepByteFresh, processUnit, h127, hnd, hns, hf1, hf2, hfr]

theorem step_final_ignore (t : Term) (hu : t.u8 = none) (f : Nat)
    (hf1 : 64 ≤ f) (hf2 : f ≤ 126) :
    stepByte (withP t .csiIgnore) f = withP t .ground := by
  obtain ⟨c, r, sr, cc, cr, sb, ms, vo, pst, u8⟩ := t
  simp only at hu
  subst hu
  have h127 : f ≤ 127 := by omega
  simp [stepByte, withP, stepByteFresh, processUnit, h127, hf1, hf2]

theorem withP_ground_self (t : Term) (ht : t.pstate = .ground) : withP t .ground = t := by
  obtain ⟨c, r, sr, cc, cr, sb, ms, vo, pst, u8⟩ := t
  simp only at ht
  subst ht
  rfl

theorem feed_ignore_params (t : Term) (hu : t.u8 = none) :
    ∀ ps : List Nat, (∀ b ∈ ps, paramByte b) →
      feed ps (withP t .csiIgnore) = withP t .csiIgnore := by
  intro ps
  induction ps with
  | nil => intro _; rfl
  | cons b rest ih =>
      intro hall
      rw [feed_cons, step_ignore_param t hu b (hall b (by simp))]
      exact ih (fun x hx => hall x (by simp [hx]))

theorem feed_csi_params (t : Term) (hu : t.u8 = none) :
    ∀ (ps : List Nat), (∀ b ∈ ps, paramByte b) →
    ∀ (qs : List Nat) (cur : Option Nat), qs.length ≤ maxCsiParams →
    (∃ qs2 cur2, feed ps (withP t (.csi qs cur)) = withP t (.csi qs2 cur2) ∧
        qs2.length = qs.length + semis ps ∧ qs2.length ≤ maxCsiParams) ∨
    feed ps (withP t (.csi qs cur)) = withP t .csiIgnore := by
  intro ps
  induction ps with
  | nil =>
      intro _ qs cur hq
      exact Or.inl ⟨qs, cur, rfl, by simp [semis], hq⟩
  | cons b rest ih =>
      intro hall qs cur hq
      have hb : paramByte b := hall b (by simp)
      have hrest : ∀ x ∈ rest, paramByte x := fun x hx => hall x (by simp [hx])
      rcases hb with hd | hs
      · rw [feed_cons, step_param_digit t hu qs cur b hd]
        have hb59 : ¬(b = 59) := by omega
        have hsem : semis (b :: rest) = semis rest := by
          simp [semis, List.filter_cons, hb59]
        rw [hsem]
        exact ih hrest qs _ hq
      · subst hs
        rw [feed_cons, step_param_semi t hu qs cur]
        have hsem : semis (59 :: rest) = semis rest + 1 := by
          simp [semis, List.filter_cons]
        by_cases hover : maxCsiParams ≤ qs.length
        · rw [if_pos hover, feed_ignore_params t hu rest hrest]
          exact Or.inr rfl
        · rw [if_neg hover]
          have hq2 : (qs ++ [cur.getD 0]).length ≤ maxCsiParams := by
            simp [maxCsiParams] at hover ⊢
            omega
          rcases ih hrest (qs ++ [cur.getD 0]) none hq2 with ⟨qs2, cur2, heq, hlen, hle⟩ | hig
          · refine Or.inl ⟨qs2, cur2, heq, ?_, hle⟩
            simp at hlen
            rw [hsem]
            omega
          · exact Or.inr hig

/-- C1: from a clean Ground state, a CSI sequence whose final byte is
outside the recognized set — and likewise one whose parameter list is
over-long, whatever its final byte — is discarded wholesale: the terminal
state (grid, cursor, scrollback, parser back at Ground) is exactly as if
the malformed sequence had never arrived, so any following printable text
lands at the cursor's prior position; processing is total, so no input
can crash the machine. -/
theorem csi_malformed_discarded (t : Term) (ht : t.pstate = .ground) (hu : t.u8 = none)
    (ps : List Nat) (hps : ∀ b ∈ ps, paramByte b) :
    (∀ f, 64 ≤ f → f ≤ 126 → recognizedCsi f = false →
      ∀ txt : List Nat, feed (27 :: 91 :: (ps ++ f :: txt)) t = feed txt t) ∧
    (maxCsiParams + 1 ≤ semis ps →
      ∀ g, 64 ≤ g → g ≤ 126 →
      ∀ txt : List Nat, feed (27 :: 91 :: (ps ++ g :: txt)) t = feed txt t) := by
  have hentry : ∀ l : List Nat, feed (27 :: 91 :: l) t = feed l (withP t (.csi [] none)) := by
    intro l
    rw [feed_cons, step_esc_of_ground t ht hu, feed_cons, step_bracket_of_escape t hu]
  have hinv := feed_csi_params t hu ps hps [] none (by simp)
  constructor
  · intro f hf1 hf2 hfr txt
    rw [hentry, feed_append, feed_cons]
    rcases hinv with ⟨qs2, cur2, heq, _, _⟩ | hig
    · rw [heq, step_final_unrecognized t hu qs2 cur2 f hf1 hf2 hfr, withP_ground_self t ht]
    · rw [hig, step_final_ignore t hu f hf1 hf2, withP_ground_self t ht]
  · intro hover g hg1 hg2 txt
    rw [hentry, feed_append, feed_cons]
    rcases hinv with ⟨qs2, cur2, heq, hlen, hle⟩ | hig
    · exfalso
      omega
    · rw [hig, step_final_ignore t hu g hg1 hg2, withP_ground_self t ht]

theorem csi_malformed_discarded_witness :
    feed (27 :: 91 :: ([51, 59, 55] ++ 126 :: [65, 66])) (mkTerm 80 24)
      = feed [65, 66] (mkTerm 80 24) :=
  (csi_malformed_discarded (mkTerm 80 24) rfl rfl [51, 59, 55] (by decide)).1
    126 (by decide) (by decide) (by decide) [65, 66]

end GhosttyVT
